import Mathlib

/-!
Verification development for the osprey-atproto moderation pipeline.

The Go sources are shallowly embedded as pure Lean functions:
* `effector/ozone.go` — the Ozone moderation client (label / tag / takedown /
  comment / report / escalate / acknowledge operations, production gating,
  needs-review duration clamp);
* `effector/receiver.go` — the verdict receiver (effect loops, action-memo
  cache gating);
* `converter/converter.go` — the firehose converter (commit handling with
  content-address validation, cursor high-water mark and resume logic);
* `pkg/bigquery_inserter/bigquery_inserter.go` — the batched analytics
  inserter;
* `retina` image-hash helpers (`strToBinary`).

External collaborators (the xrpc transport, memcached, Kafka, BigQuery, the
indigo CAR reader) are modelled as explicit state or function parameters;
moderation-API traffic is reified as lists of emitted call descriptions.
-/

namespace Osprey

/-! ## Ozone client model (src/effector/ozone.go) -/

/-- Upper bound for the needs-review label duration, `NeedsReviewMaxTime = int64(7 * 24)`. -/
def NeedsReviewMaxTime : Int := 7 * 24

/-- Closed label vocabulary `osprey.AtprotoLabel`. -/
inductive AtprotoLabel
  | hide
  | needsReview
  | porn
  | rude
  | sexual
  | spam
  | warn
  | misleading
  deriving DecidableEq, Repr

/-- Mapping from labels to their string form, `AtprotoLabelToString`. -/
def AtprotoLabelToString : AtprotoLabel → String
  | .hide => "!hide"
  | .needsReview => "needs-review"
  | .porn => "porn"
  | .rude => "rude"
  | .sexual => "sexual"
  | .spam => "spam"
  | .warn => "!warn"
  | .misleading => "misleading"

/-- Closed report-reason vocabulary `osprey.AtprotoReportKind`. -/
inductive AtprotoReportKind
  | spam
  | violation
  | misleading
  | sexual
  | rude
  | other
  deriving DecidableEq, Repr

/-- Mapping from report kinds to moderation reason tokens, `AtprotoReportKindToString`. -/
def AtprotoReportKindToString : AtprotoReportKind → String
  | .spam => "com.atproto.moderation.defs#reasonSpam"
  | .violation => "com.atproto.moderation.defs#reasonViolation"
  | .misleading => "com.atproto.moderation.defs#reasonMisleading"
  | .sexual => "com.atproto.moderation.defs#reasonSexual"
  | .rude => "com.atproto.moderation.defs#reasonRude"
  | .other => "com.atproto.moderation.defs#reasonOther"

/-- Email-template enum `osprey.AtprotoEmail`; the template identity is
irrelevant to every property here, so it is modelled as a bare number. -/
abbrev AtprotoEmail := Nat

/-- Structured provenance attached to each action, `ModToolMeta`. -/
structure ModToolMeta where
  rules : String
  deriving DecidableEq, Repr

/-- Result of `syntax.ParseATURI` (external indigo library): the fields the
effector reads from a parsed record URI. -/
structure Aturi where
  authority : String
  collection : String
  rkey : String
  deriving DecidableEq, Repr

/-- Segments of a character list split on a separator character. -/
def splitOnChar (sep : Char) : List Char → List (List Char)
  | [] => [[]]
  | c :: rest =>
    match splitOnChar sep rest with
    | [] => [[]]
    | h :: t => if c = sep then [] :: h :: t else (c :: h) :: t

/-- Model of the external `syntax.ParseATURI` on the record URIs the effector
handles: an `at://` prefix followed by authority, collection and record key. -/
def parseATURI (uri : String) : Option Aturi :=
  match uri.data with
  | 'a' :: 't' :: ':' :: '/' :: '/' :: rest =>
    match splitOnChar '/' rest with
    | [a, c, r] =>
      if a ≠ [] ∧ c ≠ [] ∧ r ≠ [] then some ⟨⟨a⟩, ⟨c⟩, ⟨r⟩⟩ else none
    | _ => none
  | _ => none

/-- Subject of an emitted moderation event: `AdminDefs_RepoRef` for actors,
`RepoStrongRef` for records. -/
inductive OzoneSubject
  | repoRef (did : String)
  | strongRef (uri cid : String)
  deriving DecidableEq, Repr

/-- One mutating call issued to the moderation API through
`ozone.ModerationEmitEvent`, carrying the event payload the client builds. -/
inductive OzoneCall
  | labelEvent (subject : OzoneSubject) (createLabelVals negateLabelVals : List String)
      (comment : String) (durationInHours : Option Int)
  | takedownEvent (subject : OzoneSubject) (comment : String) (acknowledgeAccountSubjects : Bool)
  | reverseTakedownEvent (subject : OzoneSubject) (comment : String)
  | tagEvent (subject : OzoneSubject) (add remove : List String) (comment : Option String)
  | commentEvent (subject : OzoneSubject) (comment : String)
  | reportEvent (subject : OzoneSubject) (reportType : String) (comment : String)
  | priorityScoreEvent (subject : OzoneSubject) (score : Int) (comment : String)
  | escalateEvent (subject : OzoneSubject) (comment : Option String)
  | acknowledgeEvent (subject : OzoneSubject) (comment : Option String)
  deriving DecidableEq, Repr

/-- Outcome of one Ozone client operation: the moderation-API calls it issued,
the `effectsProcessed` metric labels it incremented, and its returned error. -/
structure OpResult where
  calls : List OzoneCall
  metricType : String
  metricStatus : String
  err : Option String
  deriving DecidableEq, Repr

/-- Model of `OzoneClient.SendEmail`: the source body is a TODO stub that
returns nil and issues no call. -/
def SendEmail (_did : String) (_template : AtprotoEmail) : Option String := none

/-- Model of `OzoneClient.TakedownActor`. -/
def TakedownActor (isProduction : Bool) (did : String) (_meta : ModToolMeta)
    (comment : String) (_emailTemplate : Option AtprotoEmail) (reverse : Bool) : OpResult :=
  if isProduction then
    let call :=
      if !reverse then OzoneCall.takedownEvent (.repoRef did) comment true
      else OzoneCall.reverseTakedownEvent (.repoRef did) comment
    { calls := [call], metricType := "takedown-actor", metricStatus := "ok", err := none }
  else
    { calls := [], metricType := "takedown-actor", metricStatus := "ok", err := none }

/-- Model of `OzoneClient.TakedownRecord`. -/
def TakedownRecord (isProduction : Bool) (uri cid : String) (_meta : ModToolMeta)
    (comment : String) (_emailTemplate : Option AtprotoEmail) (reverse : Bool) : OpResult :=
  match parseATURI uri with
  | none =>
    { calls := [], metricType := "takedown-record", metricStatus := "error",
      err := some "failed to parse aturi" }
  | some _ =>
    if isProduction then
      let call :=
        if !reverse then OzoneCall.takedownEvent (.strongRef uri cid) comment true
        else OzoneCall.reverseTakedownEvent (.strongRef uri cid) comment
      { calls := [call], metricType := "takedown-record", metricStatus := "ok", err := none }
    else
      { calls := [], metricType := "takedown-record", metricStatus := "ok", err := none }

/-- Needs-review duration adjustment inside `LabelActor` / `LabelRecord`:
when the label is needs-review and the duration is absent or above
`NeedsReviewMaxTime`, it is replaced by `NeedsReviewMaxTime`. -/
def adjustLabelDuration (label : AtprotoLabel) (durationInHours : Option Int) : Option Int :=
  if label = AtprotoLabel.needsReview then
    match durationInHours with
    | none => some NeedsReviewMaxTime
    | some v => if v > NeedsReviewMaxTime then some NeedsReviewMaxTime else some v
  else durationInHours

/-- Label event payload shared by `LabelActor` and `LabelRecord`. -/
def buildLabelCall (subject : OzoneSubject) (label : AtprotoLabel) (comment : String)
    (durationInHours : Option Int) (neg : Bool) : OzoneCall :=
  let labelStr := AtprotoLabelToString label
  let cvals := if neg then [] else [labelStr]
  let nvals := if neg then [labelStr] else []
  OzoneCall.labelEvent subject cvals nvals comment durationInHours

/-- Model of `OzoneClient.LabelActor`. -/
def LabelActor (isProduction : Bool) (did : String) (_meta : ModToolMeta)
    (label : AtprotoLabel) (comment : String) (_email : Option AtprotoEmail)
    (durationInHours : Option Int) (neg : Bool) : OpResult :=
  if isProduction then
    let dur := adjustLabelDuration label durationInHours
    { calls := [buildLabelCall (.repoRef did) label comment dur neg],
      metricType := "label-actor", metricStatus := "ok", err := none }
  else
    { calls := [], metricType := "label-actor", metricStatus := "ok", err := none }

/-- Model of `OzoneClient.LabelRecord`. -/
def LabelRecord (isProduction : Bool) (uri cid : String) (_meta : ModToolMeta)
    (label : AtprotoLabel) (comment : String) (_email : Option AtprotoEmail)
    (durationInHours : Option Int) (neg : Bool) : OpResult :=
  match parseATURI uri with
  | none =>
    { calls := [], metricType := "label-record", metricStatus := "error",
      err := some "failed to parse aturi" }
  | some _ =>
    if isProduction then
      let dur := adjustLabelDuration label durationInHours
      { calls := [buildLabelCall (.strongRef uri cid) label comment dur neg],
        metricType := "label-record", metricStatus := "ok", err := none }
    else
      { calls := [], metricType := "label-record", metricStatus := "ok", err := none }

/-- Model of `OzoneClient.TagActor`. -/
def TagActor (isProduction : Bool) (did : String) (_meta : ModToolMeta)
    (tag : String) (comment : Option String) (neg : Bool) : OpResult :=
  if isProduction then
    let add := if neg then [] else [tag]
    let remove := if neg then [tag] else []
    { calls := [OzoneCall.tagEvent (.repoRef did) add remove comment],
      metricType := "tag-actor", metricStatus := "ok", err := none }
  else
    { calls := [], metricType := "tag-actor", metricStatus := "ok", err := none }

/-- Model of `OzoneClient.TagRecord`. -/
def TagRecord (isProduction : Bool) (uri cid : String) (_meta : ModToolMeta)
    (tag : String) (comment : Option String) (neg : Bool) : OpResult :=
  match parseATURI uri with
  | none =>
    { calls := [], metricType := "tag-record", metricStatus := "error",
      err := some "failed to parse aturi" }
  | some _ =>
    if isProduction then
      let add := if neg then [] else [tag]
      let remove := if neg then [tag] else []
      { calls := [OzoneCall.tagEvent (.strongRef uri cid) add remove comment],
        metricType := "tag-record", metricStatus := "ok", err := none }
    else
      { calls := [], metricType := "tag-record", metricStatus := "ok", err := none }

/-- Model of `OzoneClient.CommentActor`. -/
def CommentActor (isProduction : Bool) (did : String) (_meta : ModToolMeta)
    (comment : String) : OpResult :=
  if isProduction then
    { calls := [OzoneCall.commentEvent (.repoRef did) comment],
      metricType := "comment-actor", metricStatus := "ok", err := none }
  else
    { calls := [], metricType := "comment-actor", metricStatus := "ok", err := none }

/-- Hard-coded identifier that `CommentRecord` routes into production-mode
behavior regardless of the `isProduction` flag. -/
def haileyDid : String := "did:plc:oisofpd7lj26yvgiivf3lxsi"

/-- Model of `OzoneClient.CommentRecord`, including the `isHailey`
special-case that bypasses the production gate. -/
def CommentRecord (isProduction : Bool) (uri cid : String) (_meta : ModToolMeta)
    (comment : String) : OpResult :=
  match parseATURI uri with
  | none =>
    { calls := [], metricType := "comment-record", metricStatus := "error",
      err := some "failed to parse aturi" }
  | some aturi =>
    let isHailey := aturi.authority = haileyDid
    if isProduction ∨ isHailey then
      { calls := [OzoneCall.commentEvent (.strongRef uri cid) comment],
        metricType := "comment-record", metricStatus := "ok", err := none }
    else
      { calls := [], metricType := "comment-record", metricStatus := "ok", err := none }

/-- Model of `OzoneClient.ReportActor` (a priority score issues a second call). -/
def ReportActor (isProduction : Bool) (did : String) (_meta : ModToolMeta)
    (reportType : AtprotoReportKind) (comment : String) (priorityScore : Option Int) : OpResult :=
  if isProduction then
    let base := OzoneCall.reportEvent (.repoRef did) (AtprotoReportKindToString reportType) comment
    let extra := match priorityScore with
      | some s => [OzoneCall.priorityScoreEvent (.repoRef did) s comment]
      | none => []
    { calls := base :: extra, metricType := "report-actor", metricStatus := "ok", err := none }
  else
    { calls := [], metricType := "report-actor", metricStatus := "ok", err := none }

/-- Model of `OzoneClient.ReportRecord`. -/
def ReportRecord (isProduction : Bool) (uri cid : String) (_meta : ModToolMeta)
    (reportType : AtprotoReportKind) (comment : String) (priorityScore : Option Int) : OpResult :=
  match parseATURI uri with
  | none =>
    { calls := [], metricType := "report-record", metricStatus := "error",
      err := some "failed to parse aturi" }
  | some _ =>
    if isProduction then
      let base := OzoneCall.reportEvent (.strongRef uri cid) (AtprotoReportKindToString reportType) comment
      let extra := match priorityScore with
        | some s => [OzoneCall.priorityScoreEvent (.strongRef uri cid) s comment]
        | none => []
      { calls := base :: extra, metricType := "report-record", metricStatus := "ok", err := none }
    else
      { calls := [], metricType := "report-record", metricStatus := "ok", err := none }

/-- Model of `OzoneClient.EscalateActor`. -/
def EscalateActor (isProduction : Bool) (did : String) (_meta : ModToolMeta)
    (comment : Option String) : OpResult :=
  if isProduction then
    { calls := [OzoneCall.escalateEvent (.repoRef did) comment],
      metricType := "escalate-actor", metricStatus := "ok", err := none }
  else
    { calls := [], metricType := "escalate-actor", metricStatus := "ok", err := none }

/-- Model of `OzoneClient.EscalateRecord` (its metric type is the source's
literal truncated string). -/
def EscalateRecord (isProduction : Bool) (uri cid : String) (_meta : ModToolMeta)
    (comment : Option String) : OpResult :=
  match parseATURI uri with
  | none =>
    { calls := [], metricType := "escalate-", metricStatus := "error",
      err := some "failed to parse aturi" }
  | some _ =>
    if isProduction then
      { calls := [OzoneCall.escalateEvent (.strongRef uri cid) comment],
        metricType := "escalate-", metricStatus := "ok", err := none }
    else
      { calls := [], metricType := "escalate-", metricStatus := "ok", err := none }

/-- Model of `OzoneClient.AcknowledgeActor`. -/
def AcknowledgeActor (isProduction : Bool) (did : String) (_meta : ModToolMeta)
    (comment : Option String) : OpResult :=
  if isProduction then
    { calls := [OzoneCall.acknowledgeEvent (.repoRef did) comment],
      metricType := "acknowledge-actor", metricStatus := "ok", err := none }
  else
    { calls := [], metricType := "acknowledge-actor", metricStatus := "ok", err := none }

/-- Model of `OzoneClient.AcknowledgeRecord`. -/
def AcknowledgeRecord (isProduction : Bool) (uri cid : String) (_meta : ModToolMeta)
    (comment : Option String) : OpResult :=
  match parseATURI uri with
  | none =>
    { calls := [], metricType := "acknowledge-record", metricStatus := "error",
      err := some "failed to parse aturi" }
  | some _ =>
    if isProduction then
      { calls := [OzoneCall.acknowledgeEvent (.strongRef uri cid) comment],
        metricType := "acknowledge-record", metricStatus := "ok", err := none }
    else
      { calls := [], metricType := "acknowledge-record", metricStatus := "ok", err := none }

/-- Durations carried by the label events inside an operation's call list. -/
def emittedLabelDurations (r : OpResult) : List (Option Int) :=
  r.calls.filterMap fun c =>
    match c with
    | .labelEvent _ _ _ _ d => some d
    | _ => none

/-! ## Verdict receiver model (src/effector/receiver.go) -/

/-- Subject kind enum `osprey.AtprotoSubjectKind`. -/
inductive AtprotoSubjectKind
  | unspecified
  | actor
  | record
  deriving DecidableEq, Repr

/-- String rendering of the subject kind enum (proto `String()`), used as the
`kind` metric label. -/
def AtprotoSubjectKind.str : AtprotoSubjectKind → String
  | .unspecified => "ATPROTO_SUBJECT_KIND_UNSPECIFIED"
  | .actor => "ATPROTO_SUBJECT_KIND_ACTOR"
  | .record => "ATPROTO_SUBJECT_KIND_RECORD"

/-- Effect kind enum `osprey.AtprotoEffectKind` (add vs remove). -/
inductive AtprotoEffectKind
  | unspecified
  | add
  | remove
  deriving DecidableEq, Repr

/-- `osprey.LabelEffect` fields read by the receiver. -/
structure LabelEffect where
  subjectKind : AtprotoSubjectKind
  label : AtprotoLabel
  comment : String
  email : Option AtprotoEmail
  expirationInHours : Option Int
  rules : List String
  effectKind : AtprotoEffectKind
  deriving DecidableEq, Repr

/-- `osprey.TagEffect` fields read by the receiver. -/
structure TagEffect where
  subjectKind : AtprotoSubjectKind
  tag : String
  comment : Option String
  rules : List String
  effectKind : AtprotoEffectKind
  deriving DecidableEq, Repr

/-- `osprey.TakedownEffect` fields read by the receiver. -/
structure TakedownEffect where
  subjectKind : AtprotoSubjectKind
  comment : String
  email : Option AtprotoEmail
  rules : List String
  effectKind : AtprotoEffectKind
  deriving DecidableEq, Repr

/-- `osprey.ReportEffect` fields read by the receiver. -/
structure ReportEffect where
  subjectKind : AtprotoSubjectKind
  reportKind : AtprotoReportKind
  comment : String
  priorityScore : Option Int
  rules : List String
  deriving DecidableEq, Repr

/-- `osprey.CommentEffect` fields read by the receiver. -/
structure CommentEffect where
  subjectKind : AtprotoSubjectKind
  comment : String
  rules : List String
  deriving DecidableEq, Repr

/-- `osprey.EscalateEffect` fields read by the receiver. -/
structure EscalateEffect where
  subjectKind : AtprotoSubjectKind
  comment : Option String
  rules : List String
  deriving DecidableEq, Repr

/-- `osprey.AcknowledgeEffect` fields read by the receiver. -/
structure AcknowledgeEffect where
  subjectKind : AtprotoSubjectKind
  comment : Option String
  rules : List String
  deriving DecidableEq, Repr

/-- `osprey.EmailEffect` fields read by the receiver. -/
structure EmailEffect where
  email : AtprotoEmail
  comment : Option String
  rules : List String
  deriving DecidableEq, Repr

/-- `osprey.ResultEvent` fields read by the receiver's effect loops. -/
structure ResultEvent where
  did : String
  uri : String
  cid : String
  actionName : String
  actionId : Int
  labels : List LabelEffect := []
  tags : List TagEffect := []
  takedowns : List TakedownEffect := []
  reports : List ReportEffect := []
  comments : List CommentEffect := []
  escalations : List EscalateEffect := []
  acknowledgements : List AcknowledgeEffect := []
  emails : List EmailEffect := []
  deriving Repr

/-- One invocation of an Ozone client method by the receiver, with the
arguments it passed. -/
inductive ClientCall
  | labelActor (did rules : String) (label : AtprotoLabel) (comment : String)
      (email : Option AtprotoEmail) (durationInHours : Option Int) (neg : Bool)
  | labelRecord (uri cid rules : String) (label : AtprotoLabel) (comment : String)
      (email : Option AtprotoEmail) (durationInHours : Option Int) (neg : Bool)
  | tagActor (did rules tag : String) (comment : Option String) (neg : Bool)
  | tagRecord (uri cid rules tag : String) (comment : Option String) (neg : Bool)
  | takedownActor (did rules comment : String) (email : Option AtprotoEmail) (reverse : Bool)
  | takedownRecord (uri cid rules comment : String) (email : Option AtprotoEmail) (reverse : Bool)
  | commentActor (did rules comment : String)
  | commentRecord (uri cid rules comment : String)
  | reportActor (did rules : String) (kind : AtprotoReportKind) (comment : String)
      (priorityScore : Option Int)
  | reportRecord (uri cid rules : String) (kind : AtprotoReportKind) (comment : String)
      (priorityScore : Option Int)
  | escalateActor (did rules : String) (comment : Option String)
  | escalateRecord (uri cid rules : String) (comment : Option String)
  | acknowledgeActor (did rules : String) (comment : Option String)
  | acknowledgeRecord (uri cid rules : String) (comment : Option String)
  | sendEmail (did : String) (template : AtprotoEmail)
  deriving DecidableEq, Repr

/-- One `ozoneRequests` metric increment (type, kind, status labels). -/
structure OzoneRequestInc where
  reqType : String
  kind : String
  status : String
  deriving DecidableEq, Repr

/-- Action-memo cache state: the set of keys currently stored in memcached,
within their TTL. -/
abbrev MemoCache := List String

/-- Model of `createActionKey`: subject, dash, comma-joined rules, and an
optional `-dur-N` suffix. -/
def createActionKey (subject ruleName : String) (expirationInHours : Option Int) : String :=
  let key := subject ++ "-" ++ ruleName
  match expirationInHours with
  | some d => key ++ "-dur-" ++ toString d
  | none => key

/-- Model of `checkHasActioned`: a hit returns true and leaves the cache
alone; a miss inserts the key and returns false so the action is applied. -/
def checkHasActioned (cache : MemoCache) (subject ruleName : String)
    (expirationInHours : Option Int) : Bool × MemoCache :=
  let key := createActionKey subject ruleName expirationInHours
  if key ∈ cache then (true, cache)
  else (false, key :: cache)

/-- Subject string the memo key is computed from: the event DID for ACTOR
effects, the event URI for RECORD effects. -/
def memoSubject (evt : ResultEvent) : AtprotoSubjectKind → String
  | .actor => evt.did
  | _ => evt.uri

/-- Accumulated output of a receiver effect loop: final cache state, client
invocations in order, and `ozoneRequests` metric increments in order. -/
structure LoopOut where
  cache : MemoCache
  calls : List ClientCall
  metrics : List OzoneRequestInc
  deriving DecidableEq, Repr

/-- Status the receiver observes from a record-subject client call: the
modelled client errors exactly when the event URI fails to parse. -/
def recordCallStatus (uri : String) : String :=
  if (parseATURI uri).isSome then "ok" else "error"

/-- One iteration of the labels loop in `handleEvent`. -/
def labelEffectStep (evt : ResultEvent) (cache : MemoCache) (e : LabelEffect) :
    MemoCache × List ClientCall × OzoneRequestInc :=
  let rules := String.intercalate "," e.rules
  let comment := "Actioned by rules " ++ rules ++ "\n\n" ++ e.comment
  match e.subjectKind with
  | .actor =>
    match checkHasActioned cache evt.did rules e.expirationInHours with
    | (true, c) => (c, [], ⟨"label", AtprotoSubjectKind.actor.str, "skipped"⟩)
    | (false, c) =>
      (c, [.labelActor evt.did rules e.label comment e.email e.expirationInHours
            (e.effectKind = .remove)],
        ⟨"label", AtprotoSubjectKind.actor.str, "ok"⟩)
  | .record =>
    match checkHasActioned cache evt.uri rules e.expirationInHours with
    | (true, c) => (c, [], ⟨"label", AtprotoSubjectKind.record.str, "skipped"⟩)
    | (false, c) =>
      (c, [.labelRecord evt.uri evt.cid rules e.label comment e.email e.expirationInHours
            (e.effectKind = .remove)],
        ⟨"label", AtprotoSubjectKind.record.str, recordCallStatus evt.uri⟩)
  | .unspecified => (cache, [], ⟨"label", AtprotoSubjectKind.unspecified.str, "error"⟩)

/-- One iteration of the tags loop in `handleEvent`; the tag client call
receives the effect's raw optional comment, no memo duration. -/
def tagEffectStep (evt : ResultEvent) (cache : MemoCache) (e : TagEffect) :
    MemoCache × List ClientCall × OzoneRequestInc :=
  let rules := String.intercalate "," e.rules
  match e.subjectKind with
  | .actor =>
    match checkHasActioned cache evt.did rules none with
    | (true, c) => (c, [], ⟨"tag", AtprotoSubjectKind.actor.str, "skipped"⟩)
    | (false, c) =>
      (c, [.tagActor evt.did rules e.tag e.comment (e.effectKind = .remove)],
        ⟨"tag", AtprotoSubjectKind.actor.str, "ok"⟩)
  | .record =>
    match checkHasActioned cache evt.uri rules none with
    | (true, c) => (c, [], ⟨"tag", AtprotoSubjectKind.record.str, "skipped"⟩)
    | (false, c) =>
      (c, [.tagRecord evt.uri evt.cid rules e.tag e.comment (e.effectKind = .remove)],
        ⟨"tag", AtprotoSubjectKind.record.str, recordCallStatus evt.uri⟩)
  | .unspecified => (cache, [], ⟨"tag", AtprotoSubjectKind.unspecified.str, "error"⟩)

/-- One iteration of the takedowns loop in `handleEvent`. -/
def takedownEffectStep (evt : ResultEvent) (cache : MemoCache) (e : TakedownEffect) :
    MemoCache × List ClientCall × OzoneRequestInc :=
  let rules := String.intercalate "," e.rules
  let comment := "Actioned by rules " ++ rules ++ "\n\n" ++ e.comment
  match e.subjectKind with
  | .actor =>
    match checkHasActioned cache evt.did rules none with
    | (true, c) => (c, [], ⟨"takedown", AtprotoSubjectKind.actor.str, "skipped"⟩)
    | (false, c) =>
      (c, [.takedownActor evt.did rules comment e.email (e.effectKind = .remove)],
        ⟨"takedown", AtprotoSubjectKind.actor.str, "ok"⟩)
  | .record =>
    match checkHasActioned cache evt.uri rules none with
    | (true, c) => (c, [], ⟨"takedown", AtprotoSubjectKind.record.str, "skipped"⟩)
    | (false, c) =>
      (c, [.takedownRecord evt.uri evt.cid rules comment e.email (e.effectKind = .remove)],
        ⟨"takedown", AtprotoSubjectKind.record.str, recordCallStatus evt.uri⟩)
  | .unspecified => (cache, [], ⟨"takedown", AtprotoSubjectKind.unspecified.str, "error"⟩)

/-- One iteration of the comments loop in `handleEvent`. -/
def commentEffectStep (evt : ResultEvent) (cache : MemoCache) (e : CommentEffect) :
    MemoCache × List ClientCall × OzoneRequestInc :=
  let rules := String.intercalate "," e.rules
  let comment := "Actioned by rules " ++ rules ++ "\n\n" ++ e.comment
  match e.subjectKind with
  | .actor =>
    match checkHasActioned cache evt.did rules none with
    | (true, c) => (c, [], ⟨"comment", AtprotoSubjectKind.actor.str, "skipped"⟩)
    | (false, c) =>
      (c, [.commentActor evt.did rules comment],
        ⟨"comment", AtprotoSubjectKind.actor.str, "ok"⟩)
  | .record =>
    match checkHasActioned cache evt.uri rules none with
    | (true, c) => (c, [], ⟨"comment", AtprotoSubjectKind.record.str, "skipped"⟩)
    | (false, c) =>
      (c, [.commentRecord evt.uri evt.cid rules comment],
        ⟨"comment", AtprotoSubjectKind.record.str, recordCallStatus evt.uri⟩)
  | .unspecified => (cache, [], ⟨"comment", AtprotoSubjectKind.unspecified.str, "error"⟩)

/-- Fold a per-effect step over a whole effect list, accumulating cache,
calls and metrics in order. -/
def runLoop {α : Type} (step : MemoCache → α → MemoCache × List ClientCall × OzoneRequestInc)
    (cache : MemoCache) : List α → LoopOut
  | [] => ⟨cache, [], []⟩
  | e :: rest =>
    let s := step cache e
    let out := runLoop step s.1 rest
    ⟨out.cache, s.2.1 ++ out.calls, s.2.2 :: out.metrics⟩

/-- Labels loop of `handleEvent`. -/
def processLabels (cache : MemoCache) (evt : ResultEvent) : LoopOut :=
  runLoop (labelEffectStep evt) cache evt.labels

/-- Tags loop of `handleEvent`. -/
def processTags (cache : MemoCache) (evt : ResultEvent) : LoopOut :=
  runLoop (tagEffectStep evt) cache evt.tags

/-- Takedowns loop of `handleEvent`. -/
def processTakedowns (cache : MemoCache) (evt : ResultEvent) : LoopOut :=
  runLoop (takedownEffectStep evt) cache evt.takedowns

/-- Comments loop of `handleEvent`. -/
def processComments (cache : MemoCache) (evt : ResultEvent) : LoopOut :=
  runLoop (commentEffectStep evt) cache evt.comments

/-- One iteration of the reports loop in `handleEvent`; the source comment
notes duplicates are purposefully not suppressed. -/
def reportEffectStep (evt : ResultEvent) (cache : MemoCache) (e : ReportEffect) :
    MemoCache × List ClientCall × OzoneRequestInc :=
  let rules := String.intercalate "," e.rules
  let comment := "Actioned by rules " ++ rules ++ "\n\n" ++ e.comment
  match e.subjectKind with
  | .actor =>
    (cache, [.reportActor evt.did rules e.reportKind comment e.priorityScore],
      ⟨"report", AtprotoSubjectKind.actor.str, "ok"⟩)
  | .record =>
    (cache, [.reportRecord evt.uri evt.cid rules e.reportKind comment e.priorityScore],
      ⟨"report", AtprotoSubjectKind.record.str, recordCallStatus evt.uri⟩)
  | .unspecified => (cache, [], ⟨"report", AtprotoSubjectKind.unspecified.str, "error"⟩)

/-- One iteration of the escalations loop in `handleEvent`; the metric uses
the source's literal type label "comment". -/
def escalationEffectStep (evt : ResultEvent) (cache : MemoCache) (e : EscalateEffect) :
    MemoCache × List ClientCall × OzoneRequestInc :=
  let rules := String.intercalate "," e.rules
  match e.subjectKind with
  | .actor =>
    (cache, [.escalateActor evt.did rules e.comment],
      ⟨"comment", AtprotoSubjectKind.actor.str, "ok"⟩)
  | .record =>
    (cache, [.escalateRecord evt.uri evt.cid rules e.comment],
      ⟨"comment", AtprotoSubjectKind.record.str, recordCallStatus evt.uri⟩)
  | .unspecified => (cache, [], ⟨"comment", AtprotoSubjectKind.unspecified.str, "error"⟩)

/-- One iteration of the acknowledgements loop in `handleEvent`. The record
arm invokes `EscalateRecord` — exactly as the source does at
receiver.go line 758 — while logging the effect as an acknowledgement. -/
def acknowledgementEffectStep (evt : ResultEvent) (cache : MemoCache) (e : AcknowledgeEffect) :
    MemoCache × List ClientCall × OzoneRequestInc :=
  let rules := String.intercalate "," e.rules
  match e.subjectKind with
  | .actor =>
    (cache, [.acknowledgeActor evt.did rules e.comment],
      ⟨"comment", AtprotoSubjectKind.actor.str, "ok"⟩)
  | .record =>
    (cache, [.escalateRecord evt.uri evt.cid rules e.comment],
      ⟨"comment", AtprotoSubjectKind.record.str, recordCallStatus evt.uri⟩)
  | .unspecified => (cache, [], ⟨"comment", AtprotoSubjectKind.unspecified.str, "error"⟩)

/-- One iteration of the emails loop in `handleEvent`; `SendEmail` is a stub
that always succeeds, so the status is always "ok". -/
def emailEffectStep (evt : ResultEvent) (cache : MemoCache) (e : EmailEffect) :
    MemoCache × List ClientCall × OzoneRequestInc :=
  (cache, [.sendEmail evt.did e.email], ⟨"comment", "actor", "ok"⟩)

/-- Reports loop of `handleEvent`. -/
def processReports (cache : MemoCache) (evt : ResultEvent) : LoopOut :=
  runLoop (reportEffectStep evt) cache evt.reports

/-- Escalations loop of `handleEvent`. -/
def processEscalations (cache : MemoCache) (evt : ResultEvent) : LoopOut :=
  runLoop (escalationEffectStep evt) cache evt.escalations

/-- Acknowledgements loop of `handleEvent`. -/
def processAcknowledgements (cache : MemoCache) (evt : ResultEvent) : LoopOut :=
  runLoop (acknowledgementEffectStep evt) cache evt.acknowledgements

/-- Emails loop of `handleEvent`. -/
def processEmails (cache : MemoCache) (evt : ResultEvent) : LoopOut :=
  runLoop (emailEffectStep evt) cache evt.emails

/-! ## Firehose converter model (src/converter/converter.go) -/

/-- Commit operation enum `osprey.CommitOperation`. -/
inductive CommitOperation
  | unspecified
  | create
  | update
  | delete
  deriving DecidableEq, Repr

/-- Event kind enum `osprey.EventKind`. -/
inductive EventKind
  | unspecified
  | commit
  | account
  | identity
  deriving DecidableEq, Repr

/-- `osprey.Commit` payload of an emitted firehose event; proto string fields
default to the empty string on DELETE. -/
structure Commit where
  rev : String
  operation : CommitOperation
  collection : String
  rkey : String
  record : String := ""
  cid : String := ""
  deriving DecidableEq, Repr

/-- `osprey.FirehoseEvent` as produced by the converter. -/
structure FirehoseEvent where
  did : String
  kind : EventKind
  commit : Option Commit := none
  deriving DecidableEq, Repr

/-- One record operation of a firehose commit frame
(`atproto.SyncSubscribeRepos_RepoOp`). -/
structure RepoOp where
  action : String
  path : String
  cid : Option String
  deriving DecidableEq, Repr

/-- The fields of a commit frame (`atproto.SyncSubscribeRepos_Commit`) that
`handleRepoCommit` reads. -/
structure CommitFrame where
  repo : String
  rev : String
  seq : Int
  ops : List RepoOp
  deriving DecidableEq, Repr

/-- One converter counter increment (counter name, kind label, status label). -/
structure ConvMetricInc where
  counter : String
  kind : String
  status : String
  deriving DecidableEq, Repr

/-- Collection component of an op path (`strings.Split(op.Path, "/")[0]`). -/
def pathCollection (path : String) : String :=
  (path.splitOn "/").headD ""

/-- Record-key component of an op path (`strings.Split(op.Path, "/")[1]`). -/
def pathRkey (path : String) : String :=
  ((path.splitOn "/").drop 1).headD ""

/-- Shared create/update branch of the per-op closure in `handleRepoCommit`:
require a declared cid, fetch the record from the CAR, recompute its
content-address, drop the op on mismatch or decode failure, else build the
commit event. The CAR reader, CBOR decoder and JSON marshaller are external
primitives passed as functions. -/
def decodeRecordOp (getRecordBytes : String → Option (String × String))
    (unmarshalCBOR jsonMarshal : String → Option String)
    (frame : CommitFrame) (op : RepoOp) (operation : CommitOperation) :
    Option FirehoseEvent × List ConvMetricInc :=
  match op.cid with
  | none => (none, [⟨"firehose_events_received", "commit", "error"⟩])
  | some declared =>
    match getRecordBytes op.path with
    | none => (none, [⟨"firehose_events_received", "commit", "error"⟩])
    | some (recCid, recB) =>
      if recCid ≠ declared then
        (none, [⟨"firehose_events_received", "commit", "error"⟩])
      else
        match unmarshalCBOR recB with
        | none => (none, [⟨"firehose_events_received", "commit", "error"⟩])
        | some rec =>
          match jsonMarshal rec with
          | none => (none, [⟨"firehose_events_received", "commit", "error"⟩])
          | some recJSON =>
            (some { did := frame.repo, kind := .commit,
                    commit := some { rev := frame.rev, operation := operation,
                                     collection := pathCollection op.path,
                                     rkey := pathRkey op.path,
                                     record := recJSON, cid := recCid } },
              [⟨"events_produced", "commit", "ok"⟩,
               ⟨"firehose_events_received", "commit", "ok"⟩])

/-- Per-op closure of `handleRepoCommit`: dispatch on the op action. Deletes
emit without a record; unknown actions are skipped with the error counter. -/
def processCommitOp (getRecordBytes : String → Option (String × String))
    (unmarshalCBOR jsonMarshal : String → Option String)
    (frame : CommitFrame) (op : RepoOp) :
    Option FirehoseEvent × List ConvMetricInc :=
  if op.action = "create" then
    decodeRecordOp getRecordBytes unmarshalCBOR jsonMarshal frame op .create
  else if op.action = "update" then
    decodeRecordOp getRecordBytes unmarshalCBOR jsonMarshal frame op .update
  else if op.action = "delete" then
    (some { did := frame.repo, kind := .commit,
            commit := some { rev := frame.rev, operation := .delete,
                             collection := pathCollection op.path,
                             rkey := pathRkey op.path } },
      [⟨"events_produced", "commit", "ok"⟩,
       ⟨"firehose_events_received", "commit", "ok"⟩])
  else
    (none, [⟨"firehose_events_received", "commit", "error"⟩])

/-- Model of `handleRepoCommit` over the ops of one commit frame (the CAR
read and timestamp parse, whose failure drops the whole frame, are taken as
already succeeded): every op is processed in order, each contributing its
events and counter increments. -/
def handleRepoCommit (getRecordBytes : String → Option (String × String))
    (unmarshalCBOR jsonMarshal : String → Option String)
    (frame : CommitFrame) : List RepoOp → List FirehoseEvent × List ConvMetricInc
  | [] => ([], [])
  | op :: rest =>
    let s := processCommitOp getRecordBytes unmarshalCBOR jsonMarshal frame op
    let out := handleRepoCommit getRecordBytes unmarshalCBOR jsonMarshal frame rest
    (s.1.toList ++ out.1, s.2 ++ out.2)

/-- Model of `updateCursor`: replace the high-water mark only when the new
sequence is strictly greater (or no cursor is held yet). -/
def updateCursor (lastCursor : Option Int) (seq : Int) : Option Int :=
  match lastCursor with
  | none => some seq
  | some l => if seq > l then some seq else some l

/-- High-water mark after a run of `updateCursor` calls. -/
def cursorAfter (init : Option Int) (seqs : List Int) : Option Int :=
  seqs.foldl updateCursor init

/-- `osprey.Cursor` record persisted on the cursor topic. -/
structure OspreyCursor where
  sequence : Int
  savedOnExit : Bool
  deriving DecidableEq, Repr

/-- Model of `isFinalConverterCursor`: the selector passed to the cursor
loader, true exactly on non-nil records with `SavedOnExit` set. -/
def isFinalConverterCursor : Option OspreyCursor → Bool
  | none => false
  | some c => c.savedOnExit

/-- Starting-cursor choice in `Run`: a CLI override `>= 0` wins, otherwise
the persisted cursor (result of `loadCursor`, if any), otherwise none. -/
def chooseStartCursor (cursorOverride : Int) (persisted : Option OspreyCursor) : Option Int :=
  if cursorOverride ≥ 0 then some cursorOverride
  else persisted.map (fun c => c.sequence)

/-- Model of `url.Values.Set`: replace every binding of the key, appending
the new one. -/
def setQueryParam (q : List (String × String)) (k v : String) : List (String × String) :=
  q.filter (fun p => p.1 ≠ k) ++ [(k, v)]

/-- Query parameters of the firehose subscription URL built in `Run`: the
`cursor` parameter is set exactly when a starting cursor exists. -/
def subscribeQuery (base : List (String × String)) (lastSeq : Option Int) :
    List (String × String) :=
  match lastSeq with
  | some n => setQueryParam base "cursor" (toString n)
  | none => base

/-! ## Batched analytics inserter model
(src/pkg/bigquery_inserter/bigquery_inserter.go) -/

/-- Mutable state of a `BigQueryInserter`; `pendingSends` counts sends in
flight (from concurrent callers) at the moment of observation. -/
structure InserterState (α : Type) where
  queuedEvents : List α
  batchSize : Nat
  pendingSends : Nat
  maxPendingSends : Nat
  deriving DecidableEq, Repr

/-- Observable outcome of one `sendStream` run. -/
inductive SendOutcome
  | dropped
  | sent (status : String) (rows : Nat)
  deriving DecidableEq, Repr

/-- Model of `sendStream`: drop the batch when `pendingSends` has reached
its bound; otherwise submit, logging and counting the underlying result
(`putFails`) without surfacing it. `pendingSends` is incremented for the
duration of the send and restored before return. -/
def sendStream {α : Type} (st : InserterState α) (toInsert : List α) (putFails : Bool) :
    InserterState α × List SendOutcome :=
  if st.pendingSends ≥ st.maxPendingSends then
    (st, [.dropped])
  else if toInsert.length = 0 then
    (st, [])
  else
    (st, [.sent (if putFails then "error" else "ok") toInsert.length])

/-- Model of `BigQueryInserter.Insert`: append the row, and when the queue
has reached `batchSize` drain it entirely into one `sendStream` call. The
returned `Option String` is the Go error value. -/
def Insert {α : Type} (st : InserterState α) (e : α) (putFails : Bool) :
    InserterState α × Option String × List SendOutcome :=
  let queued := st.queuedEvents ++ [e]
  if queued.length ≥ st.batchSize then
    let s := sendStream { st with queuedEvents := [] } queued putFails
    (s.1, none, s.2)
  else
    ({ st with queuedEvents := queued }, none, [])

/-- Model of `BigQueryInserter.Close`: flush any remaining partial batch. -/
def CloseInserter {α : Type} (st : InserterState α) (putFails : Bool) :
    InserterState α × Option String × List SendOutcome :=
  if st.queuedEvents.length > 0 then
    let s := sendStream { st with queuedEvents := [] } st.queuedEvents putFails
    (s.1, none, s.2)
  else
    (st, none, [])

/-- A batch-size-0 inserter state, constructible because `New` validates
only `MaxPendingSends`. -/
def zeroBatchState : InserterState Nat := ⟨[], 0, 0, 100⟩

/-! ## Perceptual-hash binary conversion (retina, `strToBinary`) -/

/-- Hex digit value as accepted by Go `hex.DecodeString` (digits, lowercase
and uppercase letters), computed on the code point as Go does on the byte. -/
def fromHexChar (c : Char) : Option Nat :=
  let n := c.toNat
  if 48 ≤ n ∧ n ≤ 57 then some (n - 48)
  else if 97 ≤ n ∧ n ≤ 102 then some (n - 87)
  else if 65 ≤ n ∧ n ≤ 70 then some (n - 55)
  else none

/-- Model of Go `hex.DecodeString` on the character list: consume two hex
digits per byte, failing on an invalid digit or odd length. -/
def hexDecodeList : List Char → Option (List Nat)
  | [] => some []
  | [_] => none
  | c1 :: c2 :: rest => do
    let h1 ← fromHexChar c1
    let h2 ← fromHexChar c2
    let tl ← hexDecodeList rest
    pure ((16 * h1 + h2) :: tl)

/-- ASCII bit character of bit `j` of byte `b` (`(b>>j)&1` rendered as
'0'/'1'). -/
def bitChar (b j : Nat) : Char :=
  if b / 2 ^ j % 2 = 1 then '1' else '0'

/-- The 8 ASCII bit characters of one byte, high bit first, exactly as the
inner loop of `strToBinary` writes them. -/
def byteToBits (b : Nat) : List Char :=
  [bitChar b 7, bitChar b 6, bitChar b 5, bitChar b 4,
   bitChar b 3, bitChar b 2, bitChar b 1, bitChar b 0]

/-- Model of `strToBinary`: hex-decode the input and expand each byte into
its 8 ASCII bit characters, high bit first. -/
def strToBinary (input : String) : Option String :=
  (hexDecodeList input.data).map fun bs => ⟨(bs.map byteToBits).flatten⟩

/-- The digit table Go `hex.EncodeToString` indexes into. -/
def hextable : List Char := "0123456789abcdef".data

/-- Lowercase hex character of a value below 16, as Go `hex.EncodeToString`
renders it. -/
def toHexCharLower (n : Nat) : Char :=
  hextable.getD n '0'

/-- Value of one ASCII bit character. -/
def bitVal : Char → Option Nat
  | '0' => some 0
  | '1' => some 1
  | _ => none

/-- Modelled from the spec: the inverse of the binary expansion (the source
defines only the forward `strToBinary`); every group of 8 ASCII bit
characters collapses, high bit first, into one byte re-encoded as two
lowercase hex digits. -/
def binCollapseList : List Char → Option (List Char)
  | c0 :: c1 :: c2 :: c3 :: c4 :: c5 :: c6 :: c7 :: rest => do
    let b0 ← bitVal c0
    let b1 ← bitVal c1
    let b2 ← bitVal c2
    let b3 ← bitVal c3
    let b4 ← bitVal c4
    let b5 ← bitVal c5
    let b6 ← bitVal c6
    let b7 ← bitVal c7
    let b := 128 * b0 + 64 * b1 + 32 * b2 + 16 * b3 + 8 * b4 + 4 * b5 + 2 * b6 + b7
    let tl ← binCollapseList rest
    pure (toHexCharLower (b / 16) :: toHexCharLower (b % 16) :: tl)
  | [] => some []
  | _ => none

/-- Modelled from the spec: collapse a binary string back to its hex form
via the inverse of the same conversion. -/
def binaryToHex (s : String) : Option String :=
  (binCollapseList s.data).map fun l => ⟨l⟩

/-- The sixteen characters a lowercase hex string is drawn from. -/
def lowerHexChars : List Char := hextable

/-! ## Theorems -/

theorem adjustLabelDuration_needsReview_le (dur : Option Int) :
    ∃ h, adjustLabelDuration .needsReview dur = some h ∧ h ≤ 168 := by
  unfold adjustLabelDuration NeedsReviewMaxTime
  match dur with
  | none => exact ⟨168, by norm_num, by norm_num⟩
  | some v =>
    by_cases hv : v > 7 * 24
    · refine ⟨168, ?_, by norm_num⟩
      simp only [reduceCtorEq, reduceIte, hv]
      norm_num
    · refine ⟨v, ?_, by omega⟩
      simp only [reduceIte]
      exact if_neg hv

theorem adjustLabelDuration_needsReview_cap (dur : Option Int)
    (h : dur = none ∨ ∃ v, dur = some v ∧ 168 < v) :
    adjustLabelDuration .needsReview dur = some 168 := by
  unfold adjustLabelDuration NeedsReviewMaxTime
  rcases h with rfl | ⟨v, rfl, hv⟩
  · norm_num
  · have hgt : v > 7 * 24 := by omega
    simp only [reduceIte, hgt]
    norm_num

/-- C1: every moderation-API label call emitted for the needs-review label by
a production-mode client — through `LabelActor` for ACTOR subjects or
`LabelRecord` for RECORD subjects — carries a durationInHours of at most
168, and an absent or over-168 requested duration is replaced by 168. -/
theorem C1_needs_review_duration_clamped
    (did uri cid : String) (meta : ModToolMeta) (comment : String)
    (email : Option AtprotoEmail) (dur : Option Int) (neg : Bool) :
    (∀ d ∈ emittedLabelDurations
        (LabelActor true did meta .needsReview comment email dur neg),
      ∃ h, d = some h ∧ h ≤ 168) ∧
    ((dur = none ∨ ∃ v, dur = some v ∧ 168 < v) →
      emittedLabelDurations (LabelActor true did meta .needsReview comment email dur neg)
        = [some 168]) ∧
    (∀ a, parseATURI uri = some a →
      (∀ d ∈ emittedLabelDurations
          (LabelRecord true uri cid meta .needsReview comment email dur neg),
        ∃ h, d = some h ∧ h ≤ 168) ∧
      ((dur = none ∨ ∃ v, dur = some v ∧ 168 < v) →
        emittedLabelDurations (LabelRecord true uri cid meta .needsReview comment email dur neg)
          = [some 168])) := by
  have hdur := adjustLabelDuration_needsReview_le dur
  obtain ⟨h, hadj, hle⟩ := hdur
  refine ⟨?_, ?_, ?_⟩
  · intro d hd
    simp [LabelActor, emittedLabelDurations, buildLabelCall, hadj] at hd
    exact ⟨h, by simp [hd, hadj], hle⟩
  · intro hcap
    simp [LabelActor, emittedLabelDurations, buildLabelCall,
      adjustLabelDuration_needsReview_cap dur hcap]
  · intro a ha
    constructor
    · intro d hd
      simp [LabelRecord, ha, emittedLabelDurations, buildLabelCall, hadj] at hd
      exact ⟨h, by simp [hd, hadj], hle⟩
    · intro hcap
      simp [LabelRecord, ha, emittedLabelDurations, buildLabelCall,
        adjustLabelDuration_needsReview_cap dur hcap]

/-- Concrete instance of C1: a requested duration of 9999 hours is clamped
to 168 for both subject kinds. -/
theorem C1_needs_review_duration_clamped_witness :
    emittedLabelDurations
        (LabelActor true "did:plc:abc" ⟨"R1"⟩ .needsReview "c" none (some 9999) false)
      = [some 168] ∧
    emittedLabelDurations
        (LabelRecord true "at://did:plc:abc/app.bsky.feed.post/3k" "cid1" ⟨"R1"⟩
          .needsReview "c" none (some 9999) false)
      = [some 168] := by
  have h := C1_needs_review_duration_clamped "did:plc:abc"
    "at://did:plc:abc/app.bsky.feed.post/3k" "cid1" ⟨"R1"⟩ "c" none (some 9999) false
  refine ⟨h.2.1 (Or.inr ⟨9999, rfl, by norm_num⟩), ?_⟩
  exact (h.2.2 ⟨"did:plc:abc", "app.bsky.feed.post", "3k"⟩ (by decide)).2
    (Or.inr ⟨9999, rfl, by norm_num⟩)

/-- A verdict carrying a single RECORD-subject acknowledgement effect. -/
def ackRecordEvent : ResultEvent :=
  { did := "did:plc:abc", uri := "at://did:plc:abc/app.bsky.feed.post/3k",
    cid := "cid1", actionName := "app.bsky.feed.post#create", actionId := 1,
    acknowledgements := [⟨.record, some "check", ["R1"]⟩] }

/-- C2: processing a RECORD-subject acknowledgement effect invokes the
client's `EscalateRecord` operation — not `AcknowledgeRecord` — exactly as
receiver.go line 758 does, while logging the effect as an acknowledgement.
This evaluates the code at the failing input of the claim. -/
theorem C2_ack_record_reuses_escalate :
    (processAcknowledgements [] ackRecordEvent).calls
      = [.escalateRecord "at://did:plc:abc/app.bsky.feed.post/3k" "cid1" "R1" (some "check")]
      ∧ ∀ c ∈ (processAcknowledgements [] ackRecordEvent).calls,
          ∀ uri cid rules comment, c ≠ ClientCall.acknowledgeRecord uri cid rules comment := by
  have hcalls : (processAcknowledgements [] ackRecordEvent).calls
      = [.escalateRecord "at://did:plc:abc/app.bsky.feed.post/3k" "cid1" "R1" (some "check")] := by
    decide
  refine ⟨hcalls, ?_⟩
  intro c hc uri cid rules comment
  rw [hcalls] at hc
  simp only [List.mem_singleton] at hc
  subst hc
  simp

/-- Counterexample to C9 as stated: record-subject CommentRecord at the
hard-coded identifier issues a mutating moderation call although
`isProduction` is false. -/
theorem C9_nonproduction_counterexample :
    (CommentRecord false "at://did:plc:oisofpd7lj26yvgiivf3lxsi/app.bsky.feed.post/3k"
        "cid1" ⟨"R1"⟩ "hello").calls
      = [.commentEvent
          (.strongRef "at://did:plc:oisofpd7lj26yvgiivf3lxsi/app.bsky.feed.post/3k" "cid1")
          "hello"] ∧
    (CommentRecord false "at://did:plc:oisofpd7lj26yvgiivf3lxsi/app.bsky.feed.post/3k"
        "cid1" ⟨"R1"⟩ "hello").calls ≠ [] := by
  refine ⟨by decide, by decide⟩

/-- C9 (amended): with `isProduction` false, every moderation-client
operation issues no moderation-API call, increments its effects-processed
metric with status ok and returns nil — for every parsable subject — with
the single exception of `CommentRecord` on records authored by the
hard-coded identifier, which issues the call anyway. -/
theorem C9_nonproduction_noop
    (did uri cid : String) (meta : ModToolMeta) (comment : String)
    (optComment : Option String) (email : Option AtprotoEmail)
    (label : AtprotoLabel) (tag : String) (kind : AtprotoReportKind)
    (prio : Option Int) (dur : Option Int) (neg reverse : Bool) :
    TakedownActor false did meta comment email reverse
      = ⟨[], "takedown-actor", "ok", none⟩ ∧
    ((parseATURI uri).isSome →
      TakedownRecord false uri cid meta comment email reverse
        = ⟨[], "takedown-record", "ok", none⟩) ∧
    LabelActor false did meta label comment email dur neg
      = ⟨[], "label-actor", "ok", none⟩ ∧
    ((parseATURI uri).isSome →
      LabelRecord false uri cid meta label comment email dur neg
        = ⟨[], "label-record", "ok", none⟩) ∧
    TagActor false did meta tag optComment neg
      = ⟨[], "tag-actor", "ok", none⟩ ∧
    ((parseATURI uri).isSome →
      TagRecord false uri cid meta tag optComment neg
        = ⟨[], "tag-record", "ok", none⟩) ∧
    CommentActor false did meta comment
      = ⟨[], "comment-actor", "ok", none⟩ ∧
    (∀ a, parseATURI uri = some a → a.authority ≠ haileyDid →
      CommentRecord false uri cid meta comment
        = ⟨[], "comment-record", "ok", none⟩) ∧
    ReportActor false did meta kind comment prio
      = ⟨[], "report-actor", "ok", none⟩ ∧
    ((parseATURI uri).isSome →
      ReportRecord false uri cid meta kind comment prio
        = ⟨[], "report-record", "ok", none⟩) ∧
    EscalateActor false did meta optComment
      = ⟨[], "escalate-actor", "ok", none⟩ ∧
    ((parseATURI uri).isSome →
      EscalateRecord false uri cid meta optComment
        = ⟨[], "escalate-", "ok", none⟩) ∧
    AcknowledgeActor false did meta optComment
      = ⟨[], "acknowledge-actor", "ok", none⟩ ∧
    ((parseATURI uri).isSome →
      AcknowledgeRecord false uri cid meta optComment
        = ⟨[], "acknowledge-record", "ok", none⟩) := by
  refine ⟨by simp [TakedownActor], ?_, by simp [LabelActor], ?_, by simp [TagActor], ?_,
    by simp [CommentActor], ?_, by simp [ReportActor], ?_, by simp [EscalateActor], ?_,
    by simp [AcknowledgeActor], ?_⟩
  · intro hp; obtain ⟨a, ha⟩ := Option.isSome_iff_exists.mp hp
    simp [TakedownRecord, ha]
  · intro hp; obtain ⟨a, ha⟩ := Option.isSome_iff_exists.mp hp
    simp [LabelRecord, ha]
  · intro hp; obtain ⟨a, ha⟩ := Option.isSome_iff_exists.mp hp
    simp [TagRecord, ha]
  · intro a ha hne
    simp [CommentRecord, ha, hne]
  · intro hp; obtain ⟨a, ha⟩ := Option.isSome_iff_exists.mp hp
    simp [ReportRecord, ha]
  · intro hp; obtain ⟨a, ha⟩ := Option.isSome_iff_exists.mp hp
    simp [EscalateRecord, ha]
  · intro hp; obtain ⟨a, ha⟩ := Option.isSome_iff_exists.mp hp
    simp [AcknowledgeRecord, ha]

/-- C3: every label, tag, takedown and comment effect is gated by the action
memo: a cached key means the effect is skipped (no client call, metric
skipped, cache untouched); a missing key means the key is inserted and
exactly one client call is made, so the same effect processed twice while
the key lives produces exactly one call. -/
theorem C3_action_memo_gates_destructive_effects (cache : MemoCache) (evt : ResultEvent) :
    (∀ e : LabelEffect, e.subjectKind ≠ .unspecified →
      (createActionKey (memoSubject evt e.subjectKind) (String.intercalate "," e.rules)
          e.expirationInHours ∈ cache →
        processLabels cache { evt with labels := [e] }
          = ⟨cache, [], [⟨"label", e.subjectKind.str, "skipped"⟩]⟩) ∧
      (createActionKey (memoSubject evt e.subjectKind) (String.intercalate "," e.rules)
          e.expirationInHours ∉ cache →
        (processLabels cache { evt with labels := [e] }).calls.length = 1 ∧
        createActionKey (memoSubject evt e.subjectKind) (String.intercalate "," e.rules)
            e.expirationInHours ∈ (processLabels cache { evt with labels := [e] }).cache ∧
        (processLabels cache { evt with labels := [e, e] }).calls.length = 1)) ∧
    (∀ e : TagEffect, e.subjectKind ≠ .unspecified →
      (createActionKey (memoSubject evt e.subjectKind) (String.intercalate "," e.rules)
          none ∈ cache →
        processTags cache { evt with tags := [e] }
          = ⟨cache, [], [⟨"tag", e.subjectKind.str, "skipped"⟩]⟩) ∧
      (createActionKey (memoSubject evt e.subjectKind) (String.intercalate "," e.rules)
          none ∉ cache →
        (processTags cache { evt with tags := [e] }).calls.length = 1 ∧
        createActionKey (memoSubject evt e.subjectKind) (String.intercalate "," e.rules)
            none ∈ (processTags cache { evt with tags := [e] }).cache ∧
        (processTags cache { evt with tags := [e, e] }).calls.length = 1)) ∧
    (∀ e : TakedownEffect, e.subjectKind ≠ .unspecified →
      (createActionKey (memoSubject evt e.subjectKind) (String.intercalate "," e.rules)
          none ∈ cache →
        processTakedowns cache { evt with takedowns := [e] }
          = ⟨cache, [], [⟨"takedown", e.subjectKind.str, "skipped"⟩]⟩) ∧
      (createActionKey (memoSubject evt e.subjectKind) (String.intercalate "," e.rules)
          none ∉ cache →
        (processTakedowns cache { evt with takedowns := [e] }).calls.length = 1 ∧
        createActionKey (memoSubject evt e.subjectKind) (String.intercalate "," e.rules)
            none ∈ (processTakedowns cache { evt with takedowns := [e] }).cache ∧
        (processTakedowns cache { evt with takedowns := [e, e] }).calls.length = 1)) ∧
    (∀ e : CommentEffect, e.subjectKind ≠ .unspecified →
      (createActionKey (memoSubject evt e.subjectKind) (String.intercalate "," e.rules)
          none ∈ cache →
        processComments cache { evt with comments := [e] }
          = ⟨cache, [], [⟨"comment", e.subjectKind.str, "skipped"⟩]⟩) ∧
      (createActionKey (memoSubject evt e.subjectKind) (String.intercalate "," e.rules)
          none ∉ cache →
        (processComments cache { evt with comments := [e] }).calls.length = 1 ∧
        createActionKey (memoSubject evt e.subjectKind) (String.intercalate "," e.rules)
            none ∈ (processComments cache { evt with comments := [e] }).cache ∧
        (processComments cache { evt with comments := [e, e] }).calls.length = 1)) := by
  refine ⟨?_, ?_, ?_, ?_⟩
  · intro e hne
    obtain ⟨sk, lbl, cmt, em, exp, rl, ek⟩ := e
    cases sk with
    | unspecified => exact absurd rfl hne
    | actor =>
      constructor
      · intro hmem
        simp only [memoSubject] at hmem
        simp [processLabels, runLoop, labelEffectStep, checkHasActioned, hmem]
      · intro hmem
        simp only [memoSubject] at hmem
        simp [processLabels, runLoop, labelEffectStep, checkHasActioned, hmem, memoSubject]
    | record =>
      constructor
      · intro hmem
        simp only [memoSubject] at hmem
        simp [processLabels, runLoop, labelEffectStep, checkHasActioned, hmem]
      · intro hmem
        simp only [memoSubject] at hmem
        simp [processLabels, runLoop, labelEffectStep, checkHasActioned, hmem, memoSubject]
  · intro e hne
    obtain ⟨sk, tg, cmt, rl, ek⟩ := e
    cases sk with
    | unspecified => exact absurd rfl hne
    | actor =>
      constructor
      · intro hmem
        simp only [memoSubject] at hmem
        simp [processTags, runLoop, tagEffectStep, checkHasActioned, hmem]
      · intro hmem
        simp only [memoSubject] at hmem
        simp [processTags, runLoop, tagEffectStep, checkHasActioned, hmem, memoSubject]
    | record =>
      constructor
      · intro hmem
        simp only [memoSubject] at hmem
        simp [processTags, runLoop, tagEffectStep, checkHasActioned, hmem]
      · intro hmem
        simp only [memoSubject] at hmem
        simp [processTags, runLoop, tagEffectStep, checkHasActioned, hmem, memoSubject]
  · intro e hne
    obtain ⟨sk, cmt, em, rl, ek⟩ := e
    cases sk with
    | unspecified => exact absurd rfl hne
    | actor =>
      constructor
      · intro hmem
        simp only [memoSubject] at hmem
        simp [processTakedowns, runLoop, takedownEffectStep, checkHasActioned, hmem]
      · intro hmem
        simp only [memoSubject] at hmem
        simp [processTakedowns, runLoop, takedownEffectStep, checkHasActioned, hmem, memoSubject]
    | record =>
      constructor
      · intro hmem
        simp only [memoSubject] at hmem
        simp [processTakedowns, runLoop, takedownEffectStep, checkHasActioned, hmem]
      · intro hmem
        simp only [memoSubject] at hmem
        simp [processTakedowns, runLoop, takedownEffectStep, checkHasActioned, hmem, memoSubject]
  · intro e hne
    obtain ⟨sk, cmt, rl⟩ := e
    cases sk with
    | unspecified => exact absurd rfl hne
    | actor =>
      constructor
      · intro hmem
        simp only [memoSubject] at hmem
        simp [processComments, runLoop, commentEffectStep, checkHasActioned, hmem]
      · intro hmem
        simp only [memoSubject] at hmem
        simp [processComments, runLoop, commentEffectStep, checkHasActioned, hmem, memoSubject]
    | record =>
      constructor
      · intro hmem
        simp only [memoSubject] at hmem
        simp [processComments, runLoop, commentEffectStep, checkHasActioned, hmem]
      · intro hmem
        simp only [memoSubject] at hmem
        simp [processComments, runLoop, commentEffectStep, checkHasActioned, hmem, memoSubject]

/-- Concrete instance of C3 (scenario S1): the same ACTOR spam-label effect
in a verdict twice yields exactly one client call, and its key lands in the
memo cache. -/
theorem C3_action_memo_gates_destructive_effects_witness :
    (processLabels []
        { did := "did:plc:abc", uri := "", cid := "", actionName := "n", actionId := 1,
          labels := [⟨.actor, .spam, "c", none, none, ["R1"], .add⟩,
                     ⟨.actor, .spam, "c", none, none, ["R1"], .add⟩] }).calls.length = 1 := by
  have h := ((C3_action_memo_gates_destructive_effects []
      { did := "did:plc:abc", uri := "", cid := "", actionName := "n", actionId := 1,
        labels := [⟨.actor, .spam, "c", none, none, ["R1"], .add⟩,
                   ⟨.actor, .spam, "c", none, none, ["R1"], .add⟩] }).1
    ⟨.actor, .spam, "c", none, none, ["R1"], .add⟩ (by decide)).2 (by decide)
  exact h.2.2

theorem runLoop_cachefree {α : Type}
    (step : MemoCache → α → MemoCache × List ClientCall × OzoneRequestInc)
    (h1 : ∀ c e, (step c e).1 = c)
    (h2 : ∀ c c' e, (step c e).2 = (step c' e).2) :
    ∀ (l : List α) (c c' : MemoCache),
      (runLoop step c l).cache = c ∧ (runLoop step c l).calls = (runLoop step c' l).calls := by
  intro l
  induction l with
  | nil => intro c c'; simp [runLoop]
  | cons e rest ih =>
    intro c c'
    constructor
    · show (runLoop step (step c e).1 rest).cache = c
      rw [h1]
      exact (ih c c).1
    · show (step c e).2.1 ++ (runLoop step (step c e).1 rest).calls
        = (step c' e).2.1 ++ (runLoop step (step c' e).1 rest).calls
      rw [h2 c c' e]
      exact congrArg _ (ih (step c e).1 (step c' e).1).2

theorem runLoop_call_count {α : Type}
    (step : MemoCache → α → MemoCache × List ClientCall × OzoneRequestInc)
    (P : α → Bool)
    (h : ∀ c e, ((step c e).2.1).length = if P e then 1 else 0) :
    ∀ (l : List α) (c : MemoCache),
      (runLoop step c l).calls.length = (l.filter P).length := by
  intro l
  induction l with
  | nil => intro c; simp [runLoop]
  | cons e rest ih =>
    intro c
    show ((step c e).2.1 ++ (runLoop step (step c e).1 rest).calls).length = _
    rw [List.length_append, h, ih]
    cases hp : P e
    · simp [List.filter_cons, hp]
    · simp [List.filter_cons, hp]
      omega

/-- C4: report, escalation, acknowledgement and email effects never touch
the action-memo cache — the loops leave the cache unchanged, issue the same
client calls whatever the cache holds, and issue one call per effect
(per effect with a usable subject kind, every email effect). -/
theorem C4_unmemoized_effects_not_gated (cache cache' : MemoCache) (evt : ResultEvent) :
    ((processReports cache evt).cache = cache ∧
      (processReports cache evt).calls = (processReports cache' evt).calls ∧
      (processReports cache evt).calls.length
        = (evt.reports.filter
            (fun e => decide (e.subjectKind ≠ AtprotoSubjectKind.unspecified))).length) ∧
    ((processEscalations cache evt).cache = cache ∧
      (processEscalations cache evt).calls = (processEscalations cache' evt).calls ∧
      (processEscalations cache evt).calls.length
        = (evt.escalations.filter
            (fun e => decide (e.subjectKind ≠ AtprotoSubjectKind.unspecified))).length) ∧
    ((processAcknowledgements cache evt).cache = cache ∧
      (processAcknowledgements cache evt).calls = (processAcknowledgements cache' evt).calls ∧
      (processAcknowledgements cache evt).calls.length
        = (evt.acknowledgements.filter
            (fun e => decide (e.subjectKind ≠ AtprotoSubjectKind.unspecified))).length) ∧
    ((processEmails cache evt).cache = cache ∧
      (processEmails cache evt).calls = (processEmails cache' evt).calls ∧
      (processEmails cache evt).calls.length = evt.emails.length) := by
  have hrep1 : ∀ c e, (reportEffectStep evt c e).1 = c := by
    intro c e; obtain ⟨sk, k, cm, p, rl⟩ := e; cases sk <;> simp [reportEffectStep]
  have hrep2 : ∀ c c' e, (reportEffectStep evt c e).2 = (reportEffectStep evt c' e).2 := by
    intro c c' e; obtain ⟨sk, k, cm, p, rl⟩ := e; cases sk <;> simp [reportEffectStep]
  have hrep3 : ∀ c (e : ReportEffect), ((reportEffectStep evt c e).2.1).length
      = if decide (e.subjectKind ≠ AtprotoSubjectKind.unspecified) then 1 else 0 := by
    intro c e; obtain ⟨sk, k, cm, p, rl⟩ := e; cases sk <;> simp [reportEffectStep]
  have hesc1 : ∀ c e, (escalationEffectStep evt c e).1 = c := by
    intro c e; obtain ⟨sk, cm, rl⟩ := e; cases sk <;> simp [escalationEffectStep]
  have hesc2 : ∀ c c' e, (escalationEffectStep evt c e).2 = (escalationEffectStep evt c' e).2 := by
    intro c c' e; obtain ⟨sk, cm, rl⟩ := e; cases sk <;> simp [escalationEffectStep]
  have hesc3 : ∀ c (e : EscalateEffect), ((escalationEffectStep evt c e).2.1).length
      = if decide (e.subjectKind ≠ AtprotoSubjectKind.unspecified) then 1 else 0 := by
    intro c e; obtain ⟨sk, cm, rl⟩ := e; cases sk <;> simp [escalationEffectStep]
  have hack1 : ∀ c e, (acknowledgementEffectStep evt c e).1 = c := by
    intro c e; obtain ⟨sk, cm, rl⟩ := e; cases sk <;> simp [acknowledgementEffectStep]
  have hack2 : ∀ c c' e,
      (acknowledgementEffectStep evt c e).2 = (acknowledgementEffectStep evt c' e).2 := by
    intro c c' e; obtain ⟨sk, cm, rl⟩ := e; cases sk <;> simp [acknowledgementEffectStep]
  have hack3 : ∀ c (e : AcknowledgeEffect), ((acknowledgementEffectStep evt c e).2.1).length
      = if decide (e.subjectKind ≠ AtprotoSubjectKind.unspecified) then 1 else 0 := by
    intro c e; obtain ⟨sk, cm, rl⟩ := e; cases sk <;> simp [acknowledgementEffectStep]
  have hem1 : ∀ c e, (emailEffectStep evt c e).1 = c := by
    intro c e; simp [emailEffectStep]
  have hem2 : ∀ c c' e, (emailEffectStep evt c e).2 = (emailEffectStep evt c' e).2 := by
    intro c c' e; simp [emailEffectStep]
  have hem3 : ∀ c (e : EmailEffect), ((emailEffectStep evt c e).2.1).length
      = if (fun (_ : EmailEffect) => true) e then 1 else 0 := by
    intro c e; simp [emailEffectStep]
  refine ⟨⟨(runLoop_cachefree _ hrep1 hrep2 evt.reports cache cache').1,
      (runLoop_cachefree _ hrep1 hrep2 evt.reports cache cache').2,
      runLoop_call_count _ _ hrep3 evt.reports cache⟩,
    ⟨(runLoop_cachefree _ hesc1 hesc2 evt.escalations cache cache').1,
      (runLoop_cachefree _ hesc1 hesc2 evt.escalations cache cache').2,
      runLoop_call_count _ _ hesc3 evt.escalations cache⟩,
    ⟨(runLoop_cachefree _ hack1 hack2 evt.acknowledgements cache cache').1,
      (runLoop_cachefree _ hack1 hack2 evt.acknowledgements cache cache').2,
      runLoop_call_count _ _ hack3 evt.acknowledgements cache⟩,
    ⟨(runLoop_cachefree _ hem1 hem2 evt.emails cache cache').1,
      (runLoop_cachefree _ hem1 hem2 evt.emails cache cache').2, ?_⟩⟩
  simp only [processEmails]
  rw [runLoop_call_count _ _ hem3 evt.emails cache]
  simp

/-- C5: a create/update commit op whose recomputed content-address differs
from the declared one yields no output event and one commit error counter
increment; processing always continues with the remaining ops; and every
emitted create/update commit event carries a content-address equal to both
the op's declared address and the recomputed one. -/
theorem C5_commit_cid_validated (g : String → Option (String × String))
    (u m : String → Option String) (frame : CommitFrame) :
    (∀ op declared recCid recB,
      (op.action = "create" ∨ op.action = "update") →
      op.cid = some declared →
      g op.path = some (recCid, recB) →
      recCid ≠ declared →
      processCommitOp g u m frame op
        = (none, [⟨"firehose_events_received", "commit", "error"⟩])) ∧
    (∀ op rest,
      handleRepoCommit g u m frame (op :: rest)
        = ((processCommitOp g u m frame op).1.toList
              ++ (handleRepoCommit g u m frame rest).1,
            (processCommitOp g u m frame op).2
              ++ (handleRepoCommit g u m frame rest).2)) ∧
    (∀ op ev c,
      (processCommitOp g u m frame op).1 = some ev →
      ev.commit = some c →
      (c.operation = .create ∨ c.operation = .update) →
      op.cid = some c.cid ∧ ∃ recB, g op.path = some (c.cid, recB)) := by
  refine ⟨?_, fun op rest => rfl, ?_⟩
  · intro op declared recCid recB hact hcid hg hne
    rcases hact with h | h <;>
      simp [processCommitOp, h, decodeRecordOp, hcid, hg, hne]
  · intro op ev c hev hcommit hop
    by_cases h1 : op.action = "create"
    · simp only [processCommitOp, h1, reduceIte] at hev
      cases hcid : op.cid with
      | none => simp [decodeRecordOp, hcid] at hev
      | some declared =>
        cases hg : g op.path with
        | none => simp [decodeRecordOp, hcid, hg] at hev
        | some pr =>
          obtain ⟨recCid, recB⟩ := pr
          by_cases hne : recCid ≠ declared
          · simp [decodeRecordOp, hcid, hg, hne] at hev
          · cases hu : u recB with
            | none => simp [decodeRecordOp, hcid, hg, hne, hu] at hev
            | some rec =>
              cases hm : m rec with
              | none => simp [decodeRecordOp, hcid, hg, hne, hu, hm] at hev
              | some recJSON =>
                simp [decodeRecordOp, hcid, hg, hne, hu, hm] at hev
                subst hev
                simp at hcommit
                subst hcommit
                push_neg at hne
                refine ⟨by simp [hcid, hne], recB, by simp [hg, hne]⟩
    · by_cases h2 : op.action = "update"
      · simp only [processCommitOp, h1, h2, reduceIte] at hev
        cases hcid : op.cid with
        | none => simp [decodeRecordOp, hcid] at hev
        | some declared =>
          cases hg : g op.path with
          | none => simp [decodeRecordOp, hcid, hg] at hev
          | some pr =>
            obtain ⟨recCid, recB⟩ := pr
            by_cases hne : recCid ≠ declared
            · simp [decodeRecordOp, hcid, hg, hne] at hev
            · cases hu : u recB with
              | none => simp [decodeRecordOp, hcid, hg, hne, hu] at hev
              | some rec =>
                cases hm : m rec with
                | none => simp [decodeRecordOp, hcid, hg, hne, hu, hm] at hev
                | some recJSON =>
                  simp [decodeRecordOp, hcid, hg, hne, hu, hm] at hev
                  subst hev
                  simp at hcommit
                  subst hcommit
                  push_neg at hne
                  refine ⟨by simp [hcid, hne], recB, by simp [hg, hne]⟩
      · by_cases h3 : op.action = "delete"
        · simp only [processCommitOp, h1, h2, h3, reduceIte] at hev
          simp at hev
          subst hev
          simp at hcommit
          subst hcommit
          rcases hop with h | h <;> simp at h
        · simp [processCommitOp, h1, h2, h3] at hev

/-- Concrete instance of C5 (scenario S3): an op with declared address
"bafyX" whose block recomputes to "bafyY" yields no event and one commit
error increment. -/
theorem C5_commit_cid_validated_witness :
    processCommitOp (fun _ => some ("bafyY", "blockbytes")) (fun r => some r) (fun r => some r)
        ⟨"did:plc:abc", "rev1", 10, [⟨"create", "app.bsky.feed.post/3k", some "bafyX"⟩]⟩
        ⟨"create", "app.bsky.feed.post/3k", some "bafyX"⟩
      = (none, [⟨"firehose_events_received", "commit", "error"⟩]) :=
  (C5_commit_cid_validated (fun _ => some ("bafyY", "blockbytes")) (fun r => some r)
      (fun r => some r)
      ⟨"did:plc:abc", "rev1", 10, [⟨"create", "app.bsky.feed.post/3k", some "bafyX"⟩]⟩).1
    ⟨"create", "app.bsky.feed.post/3k", some "bafyX"⟩ "bafyX" "bafyY" "blockbytes"
    (Or.inl rfl) rfl rfl (by decide)

/-- Counterexample to C10 as stated: on a batch-size-0 inserter
(constructible, since `New` validates only `MaxPendingSends`), an Insert
drains the queue to empty, yet the queue does not hold fewer than batchSize
rows — refuting the universal queue-bound over every inserter state. -/
theorem C10_insert_zero_batch_counterexample :
    (Insert zeroBatchState 7 false).2.1 = none ∧
    (Insert zeroBatchState 7 false).1.queuedEvents = [] ∧
    ¬ ((Insert zeroBatchState 7 false).1.queuedEvents.length < zeroBatchState.batchSize) := by
  decide

theorem sendStream_state {α : Type} (st : InserterState α) (l : List α) (p : Bool) :
    (sendStream st l p).1 = st := by
  unfold sendStream
  split_ifs <;> rfl

/-- C10 (amended): `Insert` always returns nil — underlying submission
failures and batches dropped at the pending-sends bound are counted, never
surfaced — a queue reaching batchSize is drained to empty, and with a
positive batchSize (as everywhere in this repository: 500 and 25) the queue
afterwards holds fewer than batchSize rows. -/
theorem C10_insert_never_errors {α : Type} (st : InserterState α) (e : α) (putFails : Bool) :
    (Insert st e putFails).2.1 = none ∧
    (st.queuedEvents.length + 1 ≥ st.batchSize →
      (Insert st e putFails).1.queuedEvents = []) ∧
    (1 ≤ st.batchSize →
      (Insert st e putFails).1.queuedEvents.length < st.batchSize) ∧
    (st.pendingSends ≥ st.maxPendingSends → st.queuedEvents.length + 1 ≥ st.batchSize →
      (Insert st e putFails).2.2 = [.dropped]) ∧
    (st.pendingSends < st.maxPendingSends → st.queuedEvents.length + 1 ≥ st.batchSize →
      (Insert st e putFails).2.2
        = [.sent (if putFails then "error" else "ok") (st.queuedEvents.length + 1)]) := by
  have hqlen : (st.queuedEvents ++ [e]).length = st.queuedEvents.length + 1 := by simp
  by_cases hb : st.queuedEvents.length + 1 ≥ st.batchSize
  · refine ⟨?_, ?_, ?_, ?_, ?_⟩
    · simp [Insert, hqlen, hb]
    · intro _
      simp [Insert, hqlen, hb, sendStream_state]
    · intro h1
      simp [Insert, hqlen, hb, sendStream_state]
      omega
    · intro hp _
      simp [Insert, sendStream, hqlen, hb, hp]
    · intro hp _
      have hnp : ¬ (st.pendingSends ≥ st.maxPendingSends) := by omega
      simp [Insert, sendStream, hqlen, hb, hnp]
  · refine ⟨by simp [Insert, hqlen, hb], fun h => absurd h hb, ?_,
      fun _ h => absurd h hb, fun _ h => absurd h hb⟩
    intro _
    simp [Insert, hqlen, hb]
    omega

/-- Concrete instance of the amended C10: a queue of one row with batch size
2 drains on the next Insert; a failing submission is reported as an error
outcome but Insert still returns nil. -/
theorem C10_insert_never_errors_witness :
    (Insert (⟨[1], 2, 0, 100⟩ : InserterState Nat) 5 true).2.1 = none ∧
    (Insert (⟨[1], 2, 0, 100⟩ : InserterState Nat) 5 true).1.queuedEvents = [] ∧
    (Insert (⟨[1], 2, 0, 100⟩ : InserterState Nat) 5 true).2.2 = [.sent "error" 2] := by
  have h := C10_insert_never_errors (⟨[1], 2, 0, 100⟩ : InserterState Nat) 5 true
  exact ⟨h.1, h.2.1 (by decide), h.2.2.2.2 (by decide) (by decide)⟩

theorem bitVal_bitChar (b j : Nat) : bitVal (bitChar b j) = some (b / 2 ^ j % 2) := by
  unfold bitChar
  by_cases h : b / 2 ^ j % 2 = 1
  · simp [h, bitVal]
  · have h0 : b / 2 ^ j % 2 = 0 := by omega
    simp [h, h0, bitVal]

theorem recombineBits (b : Nat) (hb : b < 256) :
    128 * (b / 2 ^ 7 % 2) + 64 * (b / 2 ^ 6 % 2) + 32 * (b / 2 ^ 5 % 2)
      + 16 * (b / 2 ^ 4 % 2) + 8 * (b / 2 ^ 3 % 2) + 4 * (b / 2 ^ 2 % 2)
      + 2 * (b / 2 ^ 1 % 2) + b / 2 ^ 0 % 2 = b := by
  simp only [show (2 : Nat) ^ 7 = 128 from rfl, show (2 : Nat) ^ 6 = 64 from rfl,
    show (2 : Nat) ^ 5 = 32 from rfl, show (2 : Nat) ^ 4 = 16 from rfl,
    show (2 : Nat) ^ 3 = 8 from rfl, show (2 : Nat) ^ 2 = 4 from rfl,
    show (2 : Nat) ^ 1 = 2 from rfl, show (2 : Nat) ^ 0 = 1 from rfl]
  omega

theorem lowerHex_enc (c : Char) (hc : c ∈ lowerHexChars) :
    (fromHexChar c).isSome ∧ (fromHexChar c).getD 0 < 16 ∧
      toHexCharLower ((fromHexChar c).getD 0) = c := by
  have h : ∀ x ∈ lowerHexChars, (fromHexChar x).isSome ∧ (fromHexChar x).getD 0 < 16 ∧
      toHexCharLower ((fromHexChar x).getD 0) = x := by decide
  exact h c hc

theorem binCollapse_byte (b : Nat) (hb : b < 256) (t : List Char) :
    binCollapseList (byteToBits b ++ t)
      = (binCollapseList t).map
          (fun tl => toHexCharLower (b / 16) :: toHexCharLower (b % 16) :: tl) := by
  simp only [byteToBits, List.cons_append, List.nil_append, binCollapseList, bitVal_bitChar,
    Option.pure_def, Option.bind_eq_bind, Option.some_bind, List.append_eq]
  rw [recombineBits b hb]
  cases binCollapseList t <;> rfl

theorem hexRoundtripAux :
    ∀ (n : Nat) (l : List Char), l.length ≤ n → (∀ c ∈ l, c ∈ lowerHexChars) →
      l.length % 2 = 0 →
      ∃ bs, hexDecodeList l = some bs ∧
        ((bs.map byteToBits).flatten).length = 4 * l.length ∧
        binCollapseList ((bs.map byteToBits).flatten) = some l := by
  intro n
  induction n with
  | zero =>
    intro l hl _ _
    have hnil : l = [] := List.eq_nil_of_length_eq_zero (Nat.le_zero.mp hl)
    subst hnil
    exact ⟨[], rfl, by simp, by simp [binCollapseList]⟩
  | succ n ih =>
    intro l hl hlow heven
    cases l with
    | nil => exact ⟨[], rfl, by simp, by simp [binCollapseList]⟩
    | cons c1 t =>
      cases t with
      | nil => simp at heven
      | cons c2 rest =>
        obtain ⟨h1s, h1lt, h1enc⟩ := lowerHex_enc c1 (hlow c1 (by simp))
        obtain ⟨h2s, h2lt, h2enc⟩ := lowerHex_enc c2 (hlow c2 (by simp))
        cases hfc1 : fromHexChar c1 with
        | none => rw [hfc1] at h1s; cases h1s
        | some v1 =>
        cases hfc2 : fromHexChar c2 with
        | none => rw [hfc2] at h2s; cases h2s
        | some v2 =>
        rw [hfc1] at h1lt h1enc
        rw [hfc2] at h2lt h2enc
        simp only [Option.getD_some] at h1lt h1enc h2lt h2enc
        have hrl : rest.length ≤ n := by simp at hl; omega
        have hrlow : ∀ c ∈ rest, c ∈ lowerHexChars := fun c hc => hlow c (by simp [hc])
        have hreven : rest.length % 2 = 0 := by simp at heven ⊢; omega
        obtain ⟨bs, hbs, hlen, hcoll⟩ := ih rest hrl hrlow hreven
        have hb : 16 * v1 + v2 < 256 := by omega
        have hdiv : (16 * v1 + v2) / 16 = v1 := by omega
        have hmod : (16 * v1 + v2) % 16 = v2 := by omega
        refine ⟨(16 * v1 + v2) :: bs, ?_, ?_, ?_⟩
        · simp [hexDecodeList, hfc1, hfc2, hbs]
        · have h8 : (byteToBits (16 * v1 + v2)).length = 8 := rfl
          simp [h8, hlen]
          omega
        · show binCollapseList (byteToBits (16 * v1 + v2) ++ (bs.map byteToBits).flatten)
            = some (c1 :: c2 :: rest)
          rw [binCollapse_byte _ hb, hcoll, hdiv, hmod, h1enc, h2enc]
          rfl

/-- Counterexample to C8 as stated: the uppercase hex string "A0" is valid
for the decoder, expands to "10100000", but collapses back to "a0", not
"A0". -/
theorem C8_uppercase_counterexample :
    strToBinary "A0" = some "10100000" ∧ binaryToHex "10100000" = some "a0" ∧
      ("a0" : String) ≠ "A0" := by
  refine ⟨by decide, by decide, by decide⟩

/-- C8 (amended): for every even-length lowercase hex string, `strToBinary`
expands each byte into 8 ASCII bit characters high bit first (4 per hex
digit), and collapsing through the inverse conversion returns the original
string. -/
theorem C8_hex_binary_roundtrip (s : String) (hlow : ∀ c ∈ s.data, c ∈ lowerHexChars)
    (heven : s.data.length % 2 = 0) :
    ∃ bin, strToBinary s = some bin ∧ bin.data.length = 4 * s.data.length ∧
      binaryToHex bin = some s := by
  obtain ⟨bs, hbs, hlen, hcoll⟩ := hexRoundtripAux s.data.length s.data (le_refl _) hlow heven
  refine ⟨⟨(bs.map byteToBits).flatten⟩, ?_, hlen, ?_⟩
  · simp [strToBinary, hbs]
  · simp [binaryToHex, hcoll]

/-- Concrete instance of the amended C8 (scenario S6): hex "a0" expands to
"10100000" and collapses back to "a0". -/
theorem C8_hex_binary_roundtrip_witness :
    ∃ bin, strToBinary "a0" = some bin ∧
      bin.data.length = 4 * ("a0" : String).data.length ∧
      binaryToHex bin = some "a0" :=
  C8_hex_binary_roundtrip "a0" (by decide) (by decide)

/-- Pointwise order on optional cursor values: any held sequence can only
grow. -/
def cursorLe (a b : Option Int) : Prop :=
  ∀ x, a = some x → ∃ y, b = some y ∧ x ≤ y

theorem cursorLe_update (c : Option Int) (s : Int) : cursorLe c (updateCursor c s) := by
  intro x hx
  cases c with
  | none => cases hx
  | some l =>
    have hlx : l = x := Option.some.inj hx
    subst hlx
    by_cases hgt : s > l
    · exact ⟨s, by simp [updateCursor, hgt], le_of_lt hgt⟩
    · exact ⟨l, by simp [updateCursor, hgt], le_refl l⟩

theorem cursorLe_after (c : Option Int) (l : List Int) : cursorLe c (cursorAfter c l) := by
  induction l generalizing c with
  | nil => exact fun x hx => ⟨x, hx, le_refl x⟩
  | cons s rest ih =>
    intro x hx
    obtain ⟨y, hy, hxy⟩ := cursorLe_update c s x hx
    obtain ⟨z, hz, hyz⟩ := ih (updateCursor c s) y hy
    exact ⟨z, hz, le_trans hxy hyz⟩

/-- C6: the cursor high-water mark is monotone — `updateCursor` keeps the
stored value unless the new sequence is strictly greater — so the snapshots
the periodic save loop persists after longer and longer prefixes of updates
form a non-decreasing sequence. -/
theorem C6_cursor_monotone :
    (∀ l seq : Int, seq ≤ l → updateCursor (some l) seq = some l) ∧
    (∀ l seq : Int, l < seq → updateCursor (some l) seq = some seq) ∧
    (∀ seq : Int, updateCursor none seq = some seq) ∧
    (∀ (init : Option Int) (seqs : List Int) (i j : Nat), i ≤ j →
      cursorLe (cursorAfter init (seqs.take i)) (cursorAfter init (seqs.take j))) := by
  refine ⟨?_, ?_, fun seq => rfl, ?_⟩
  · intro l s h
    simp [updateCursor, not_lt.mpr h]
  · intro l s h
    simp [updateCursor, h]
  · intro init seqs i j hij
    have hsplit : seqs.take j = seqs.take i ++ (seqs.drop i).take (j - i) := by
      conv_lhs => rw [show j = i + (j - i) by omega]
      exact List.take_add seqs i (j - i)
    rw [hsplit]
    unfold cursorAfter
    rw [List.foldl_append]
    exact cursorLe_after (List.foldl updateCursor init (seqs.take i)) ((seqs.drop i).take (j - i))

/-- Concrete instance of C6: after the updates 5, 3, 7 the persisted value
has not fallen below the snapshot taken after the first update. -/
theorem C6_cursor_monotone_witness :
    ∃ y, cursorAfter none ([5, 3, 7].take 3) = some y ∧ 5 ≤ y := by
  have h := C6_cursor_monotone.2.2.2 none [5, 3, 7] 1 3 (by norm_num)
  exact h 5 (by decide)

/-- C7: the starting cursor is the CLI override when it is non-negative,
else the persisted cursor's sequence when one exists; the load selector is
exactly the savedOnExit test; and the subscription URL carries a unique
`cursor=N` query parameter exactly when a starting cursor N exists. -/
theorem C7_cursor_resume_choice (cursorOverride : Int) (persisted : Option OspreyCursor)
    (base : List (String × String)) :
    (cursorOverride ≥ 0 →
      chooseStartCursor cursorOverride persisted = some cursorOverride) ∧
    (cursorOverride < 0 →
      chooseStartCursor cursorOverride persisted = persisted.map (fun c => c.sequence)) ∧
    (∀ s b, isFinalConverterCursor (some ⟨s, b⟩) = b) ∧
    isFinalConverterCursor none = false ∧
    (∀ n, chooseStartCursor cursorOverride persisted = some n →
      ("cursor", toString n) ∈ subscribeQuery base (chooseStartCursor cursorOverride persisted) ∧
      ∀ v, ("cursor", v) ∈ subscribeQuery base (chooseStartCursor cursorOverride persisted) →
        v = toString n) ∧
    (chooseStartCursor cursorOverride persisted = none →
      subscribeQuery base (chooseStartCursor cursorOverride persisted) = base) := by
  refine ⟨?_, ?_, fun s b => rfl, rfl, ?_, ?_⟩
  · intro h
    simp [chooseStartCursor, h]
  · intro h
    simp [chooseStartCursor, not_le.mpr h]
  · intro n hn
    rw [hn]
    constructor
    · simp [subscribeQuery, setQueryParam]
    · intro v hv
      simp [subscribeQuery, setQueryParam] at hv
      exact hv
  · intro h
    rw [h]
    rfl

/-- Concrete instance of C7 (scenario S4): with no override and a persisted
cursor of sequence 1000, the subscription URL carries cursor=1000. -/
theorem C7_cursor_resume_choice_witness :
    chooseStartCursor (-1) (some ⟨1000, true⟩) = some 1000 ∧
    ("cursor", "1000") ∈ subscribeQuery [] (chooseStartCursor (-1) (some ⟨1000, true⟩)) := by
  have h := C7_cursor_resume_choice (-1) (some ⟨1000, true⟩) []
  have hc : chooseStartCursor (-1) (some ⟨1000, true⟩) = some 1000 := h.2.1 (by norm_num)
  refine ⟨hc, ?_⟩
  have h5 := (h.2.2.2.2.1 1000 hc).1
  have : toString (1000 : Int) = "1000" := rfl
  rw [this] at h5
  exact h5

/-- Concrete instance of the amended C9: for an ordinary subject, the
non-production client performs no call and reports ok. -/
theorem C9_nonproduction_noop_witness :
    LabelActor false "did:plc:abc" ⟨"R1"⟩ .spam "c" none (some 5) false
      = ⟨[], "label-actor", "ok", none⟩ ∧
    CommentRecord false "at://did:plc:abc/app.bsky.feed.post/3k" "cid1" ⟨"R1"⟩ "c"
      = ⟨[], "comment-record", "ok", none⟩ := by
  have h := C9_nonproduction_noop "did:plc:abc" "at://did:plc:abc/app.bsky.feed.post/3k"
    "cid1" ⟨"R1"⟩ "c" none none .spam "t" .spam none (some 5) false false
  exact ⟨h.2.2.1, h.2.2.2.2.2.2.2.1 ⟨"did:plc:abc", "app.bsky.feed.post", "3k"⟩
    (by decide) (by decide)⟩

end Osprey
